import Mathlib

/-!
Shallow embedding of the caddy-windns-cnames module (src/caddyfile.go).

The module keeps CNAME records on a remote Windows DNS server in sync with
a configured domain map, optionally augmented by scanning the HTTP routing
table for reverse-proxy handlers.  Durations (`caddy.Duration`) are modelled
as `Int` nanoseconds; Go's `map[string][]string` for `App.Domains` is
modelled as an association list with Go-map update semantics (update the
entry in place when the key exists, append a fresh entry otherwise).
-/

namespace WinDNS

/-- `App.Domains`: record names keyed by DNS zone (`map[string][]string`). -/
abbrev DomainMap : Type := List (String × List String)

/-- Go map read `m[z]` with the zero value `nil` for a missing key. -/
def DM.lookup : DomainMap → String → List String
  | [], _ => []
  | (z0, ns) :: rest, z => if z0 = z then ns else DM.lookup rest z

/-- Go map write `m[z] = append(m[z], n)`: extend the entry for `z` in
place, or create a fresh entry when the key is absent. -/
def DM.addName : DomainMap → String → String → DomainMap
  | [], z, n => [(z, [n])]
  | (z0, ns) :: rest, z, n =>
      if z0 = z then (z0, ns ++ [n]) :: rest else (z0, ns) :: DM.addName rest z n

/-- Repeated `DM.addName` for a batch of names. -/
def DM.appendAll (m : DomainMap) (z : String) (ns : List String) : DomainMap :=
  ns.foldl (fun m n => DM.addName m z n) m

/-- `time.Second` in nanoseconds. -/
def nsPerSecond : Int := 1000000000

/-- `defaultCheckInterval = 30 * time.Minute`, in nanoseconds. -/
def defaultCheckInterval : Int := 30 * 60 * nsPerSecond

/-- `App.Provision` restricted to the check interval it validates: a zero
interval is replaced by the default, then anything below one second is a
configuration error; the stored interval is returned on success. -/
def provisionInterval (checkInterval : Int) : Except String Int :=
  let ci := if checkInterval = 0 then defaultCheckInterval else checkInterval
  if ci < nsPerSecond then
    Except.error "check interval must be at least 1 second"
  else
    Except.ok ci

/-- `a.allDomains()` returns `a.Domains` unchanged. -/
def allDomains (m : DomainMap) : DomainMap := m

/-- The (zone, name) pairs visited by the nested loops of `updateDNS`,
in iteration order: one pair per list element of each zone's entry. -/
def attemptedTargets : DomainMap → List (String × String)
  | [] => []
  | (z, ns) :: rest => ns.map (fun n => (z, n)) ++ attemptedTargets rest

/-- Inner loop of `updateDNS` over one zone's names: call the executor on
each name and log the outcome (`true` = updated, `false` = failed); an
error is only logged, never propagated. -/
def runNames (exec : String → String → Except String Unit) (z : String) :
    List String → List (String × String × Bool)
  | [] => []
  | n :: ns => (z, n, (exec z n).isOk) :: runNames exec z ns

/-- `updateDNS` over `allDomains`, abstracted over the remote executor
(`updateCNAME` in the source): the per-target log entries of one
reconciliation pass, in order. -/
def updateDNSLog (exec : String → String → Except String Unit) :
    DomainMap → List (String × String × Bool)
  | [] => []
  | (z, ns) :: rest => runNames exec z ns ++ updateDNSLog exec rest

/-- Number of update attempts one pass makes for the pair `(z, n)`. -/
def passAttempts (exec : String → String → Except String Unit)
    (m : DomainMap) (z n : String) : Nat :=
  (updateDNSLog exec (allDomains m)).countP (fun o => decide (o.1 = z ∧ o.2.1 = n))

/-- `strings.HasSuffix s suffix`. -/
def goHasSuffix (s suffix : String) : Bool :=
  decide (suffix.data.length ≤ s.data.length) &&
    decide (s.data.drop (s.data.length - suffix.data.length) = suffix.data)

/-- `strings.TrimSuffix s suffix`. -/
def goTrimSuffix (s suffix : String) : String :=
  if goHasSuffix s suffix then
    String.mk (s.data.take (s.data.length - suffix.data.length))
  else s

/-- `strings.Contains s pat`. -/
def goContains (s pat : String) : Bool :=
  (List.range (s.data.length + 1)).any (fun i => pat.data.isPrefixOf (s.data.drop i))

/-- The PowerShell cmdlet built by `updateCNAME` for `(zone, domain)`:
`fmt.Sprintf("Add-DnsServerResourceRecordCName -ZoneName %s -Name %s -HostNameAlias %s", zone, domain, zone)`. -/
def cmdFor (zone domain : String) : String :=
  "Add-DnsServerResourceRecordCName -ZoneName " ++ zone ++ " -Name " ++ domain ++
    " -HostNameAlias " ++ zone

/-- Modelled from the spec's words, for comparison with `cmdFor`: the
administrative command that sets CNAME record `name` in zone `zoneName`
to alias an arbitrary target `alias`. -/
def renderCNAMECmd (zoneName name aliasTarget : String) : String :=
  "Add-DnsServerResourceRecordCName -ZoneName " ++ zoneName ++ " -Name " ++ name ++
    " -HostNameAlias " ++ aliasTarget

/-- The full shell command sent over SSH by `updateCNAME`. -/
def fullCmdFor (zone domain : String) : String :=
  "powershell -Command \"" ++ cmdFor zone domain ++ "\""

/-- The remote side of one `updateCNAME` call: outcome of `ssh.Dial`, of
`client.NewSession`, and of `session.CombinedOutput` (combined output
text paired with an optional transport error), as a function of the
command sent. -/
structure RemoteEnv where
  dialErr : Option String
  sessionErr : Option String
  run : String → String × Option String

/-- `App.updateCNAME`: dial, open a session, run the templated command,
then classify: any transport/session/dispatch error is an error; otherwise
output containing the substring `"Error"` is a logical failure and
anything else is success. -/
def updateCNAME (env : RemoteEnv) (zone domain : String) : Except String Unit :=
  match env.dialErr with
  | some e => Except.error ("failed to dial: " ++ e)
  | none =>
    match env.sessionErr with
    | some e => Except.error ("failed to create session: " ++ e)
    | none =>
      let r := env.run (fullCmdFor zone domain)
      match r.2 with
      | some e => Except.error ("failed to run command: " ++ e ++ ", output: " ++ r.1)
      | none =>
        if goContains r.1 "Error" then
          Except.error ("DNS record update failed: " ++ r.1)
        else
          Except.ok ()

/-- One element of `route.HandlersRaw` as seen through
`json.Unmarshal(rawHandler, &handler)` followed by the type assertion
`handler["handler"].(string)`: either the raw JSON fails to decode, or it
decodes and its `"handler"` discriminator is the given string (`none`
when the field is missing or not a string). -/
inductive RawHandler where
  | malformed
  | decoded (handlerType : Option String)

/-- One matcher of a matcher set: either a `caddyhttp.MatchHost` carrying
literal hostnames, or any other matcher module (the type switch in the
source ignores it). -/
inductive Matcher where
  | host (hosts : List String)
  | other

/-- One route: its raw handler encodings and its matcher sets. -/
structure Route where
  handlersRaw : List RawHandler
  matcherSets : List (List Matcher)

/-- One HTTP server: its routes. -/
structure Server where
  routes : List Route

/-- The routing snapshot read from the HTTP app: servers with routes. -/
structure Snapshot where
  servers : List Server

/-- Innermost loop of `addReverseProxyCNAMEs`: for every host of a
`MatchHost` matcher, add `strings.TrimSuffix(host, "."+zone)` to the map
under `zone`. -/
def addHostList (zone : String) (hosts : List String) (m : DomainMap) : DomainMap :=
  hosts.foldl (fun m host => DM.addName m zone (goTrimSuffix host ("." ++ zone))) m

/-- One matcher of a matcher set: only `caddyhttp.MatchHost` contributes. -/
def addMatcher (zone : String) (mt : Matcher) (m : DomainMap) : DomainMap :=
  match mt with
  | Matcher.host hosts => addHostList zone hosts m
  | Matcher.other => m

/-- One matcher set. -/
def addMatcherSet (zone : String) (ms : List Matcher) (m : DomainMap) : DomainMap :=
  ms.foldl (fun m mt => addMatcher zone mt m) m

/-- Matcher-set loop of `addReverseProxyCNAMEs` for one reverse-proxy
route: for every matcher set, for every `MatchHost` matcher, for every
host, add the trimmed host under `zone`. -/
def addMatcherHosts (zone : String) (msets : List (List Matcher)) (m : DomainMap) :
    DomainMap :=
  msets.foldl (fun m ms => addMatcherSet zone ms m) m

/-- Handler loop of `addReverseProxyCNAMEs` for one route: a handler that
fails to unmarshal aborts the whole function with an error (the map keeps
any additions already made); a decoded `"reverse_proxy"` handler adds the
route's matched hosts; any other decoded handler is skipped. -/
def processHandlers (zone : String) (msets : List (List Matcher)) :
    List RawHandler → DomainMap → DomainMap × Option String
  | [], m => (m, none)
  | RawHandler.malformed :: _, m => (m, some "failed to unmarshal handler")
  | RawHandler.decoded k :: rest, m =>
      processHandlers zone msets rest
        (if k = some "reverse_proxy" then addMatcherHosts zone msets m else m)

/-- Route loop of `addReverseProxyCNAMEs` for one server. -/
def processRoutes (zone : String) : List Route → DomainMap → DomainMap × Option String
  | [], m => (m, none)
  | r :: rs, m =>
      match processHandlers zone r.matcherSets r.handlersRaw m with
      | (m', none) => processRoutes zone rs m'
      | (m', some e) => (m', some e)

/-- Server loop of `addReverseProxyCNAMEs`. -/
def serversLoop (zone : String) : List Server → DomainMap → DomainMap × Option String
  | [], m => (m, none)
  | s :: ss, m =>
      match processRoutes zone s.routes m with
      | (m', none) => serversLoop zone ss m'
      | (m', some e) => (m', some e)

/-- `App.addReverseProxyCNAMEs` with `a.AutoCNAMEZone = zone`, acting on
the routing snapshot and the current `a.Domains`: returns the final state
of `a.Domains` (the map is mutated in place in the source, so it is
returned even on error) together with the error, if any. -/
def addReverseProxyCNAMEs (zone : String) (snap : Snapshot) (m : DomainMap) :
    DomainMap × Option String :=
  serversLoop zone snap.servers m

/-- Hosts carried by one matcher. -/
def matcherHosts : Matcher → List String
  | Matcher.host hs => hs
  | Matcher.other => []

/-- Hosts carried by one matcher set. -/
def msetHosts : List Matcher → List String
  | [] => []
  | mt :: rest => matcherHosts mt ++ msetHosts rest

/-- Hosts carried by a route's matcher sets. -/
def msetsHosts : List (List Matcher) → List String
  | [] => []
  | ms :: rest => msetHosts ms ++ msetsHosts rest

/-- Hosts contributed by a route's handlers: the route's matched hosts,
once per decoded `"reverse_proxy"` handler. -/
def handlersHosts (msets : List (List Matcher)) : List RawHandler → List String
  | [] => []
  | RawHandler.malformed :: rest => handlersHosts msets rest
  | RawHandler.decoded k :: rest =>
      (if k = some "reverse_proxy" then msetsHosts msets else []) ++
        handlersHosts msets rest

/-- Hosts contributed by a list of routes. -/
def routesHosts : List Route → List String
  | [] => []
  | r :: rest => handlersHosts r.matcherSets r.handlersRaw ++ routesHosts rest

/-- Hosts contributed by a list of servers. -/
def serversHosts : List Server → List String
  | [] => []
  | s :: rest => routesHosts s.routes ++ serversHosts rest

/-- All hostnames of reverse-proxy routes in the snapshot, one occurrence
per (reverse-proxy handler, host) pair, in scan order. -/
def matchedHosts (snap : Snapshot) : List String := serversHosts snap.servers

/-- `true` when no handler in the list fails to unmarshal. -/
def handlersClean : List RawHandler → Bool
  | [] => true
  | RawHandler.malformed :: _ => false
  | RawHandler.decoded _ :: rest => handlersClean rest

/-- `true` when no handler of any route fails to unmarshal. -/
def routesClean : List Route → Bool
  | [] => true
  | r :: rest => handlersClean r.handlersRaw && routesClean rest

/-- `true` when no handler of any server fails to unmarshal. -/
def serversClean : List Server → Bool
  | [] => true
  | s :: rest => routesClean s.routes && serversClean rest

/-- `true` when every raw handler in the snapshot decodes. -/
def snapClean (snap : Snapshot) : Bool := serversClean snap.servers

/-- A minimal Caddyfile token cursor for one directive: the tokens of the
directive segment and the cursor position.  `caddyfile.Dispenser.Val`
returns the current token; `NextArg` advances to the next token of the
segment and reports whether there was one (on failure the cursor, and
hence `Val`, stay put). -/
structure Dispenser where
  tokens : List String
  pos : Nat

/-- `Dispenser.Val`. -/
def Dispenser.val (d : Dispenser) : String := d.tokens.getD d.pos ""

/-- `Dispenser.NextArg`. -/
def Dispenser.nextArg (d : Dispenser) : Dispenser × Bool :=
  if d.pos + 1 < d.tokens.length then (⟨d.tokens, d.pos + 1⟩, true) else (d, false)

/-- The fields of `App` that `parseApp`'s `auto_cname` case touches. -/
structure AppZone where
  AutoCNAMEZone : String

/-- The `case "auto_cname"` branch of `parseApp`, verbatim:
`if !d.NextArg() { app.AutoCNAMEZone = d.Val() }`. -/
def autoCNAMECase (d : Dispenser) (app : AppZone) : Dispenser × AppZone :=
  let r := d.nextArg
  if !r.2 then (r.1, { app with AutoCNAMEZone := r.1.val }) else (r.1, app)

/-- `new(App)` zero value for the fields `autoCNAMECase` touches. -/
def initialAppZone : AppZone := ⟨""⟩

/-- The C6 example snapshot: one server, one route, one decoded
reverse-proxy handler, one matcher set whose host matcher lists
`"api.example.com"`. -/
def snapApi : Snapshot :=
  ⟨[⟨[⟨[RawHandler.decoded (some "reverse_proxy")],
        [[Matcher.host ["api.example.com"]]]⟩]⟩]⟩

/-- A snapshot whose single route has a matched reverse-proxy handler
followed by a malformed handler encoding. -/
def snapPartial : Snapshot :=
  ⟨[⟨[⟨[RawHandler.decoded (some "reverse_proxy"), RawHandler.malformed],
        [[Matcher.host ["a.example.com"]]]⟩]⟩]⟩

theorem strAppend_cancel_left (a b c : String) (h : a ++ b = a ++ c) : b = c := by
  have h2 : a.data ++ b.data = a.data ++ c.data := by
    rw [← String.data_append, ← String.data_append, h]
  have h3 : b.data = c.data := List.append_cancel_left h2
  cases b
  cases c
  exact congrArg String.mk h3

theorem runNames_map (exec : String → String → Except String Unit) (z : String)
    (ns : List String) :
    runNames exec z ns = ns.map (fun n => (z, n, (exec z n).isOk)) := by
  induction ns with
  | nil => rfl
  | cons n ns ih => simp [runNames, ih]

theorem updateDNSLog_map (exec : String → String → Except String Unit) (m : DomainMap) :
    updateDNSLog exec m =
      (attemptedTargets m).map (fun t => (t.1, t.2, (exec t.1 t.2).isOk)) := by
  induction m with
  | nil => rfl
  | cons p rest ih =>
    obtain ⟨z, ns⟩ := p
    simp [updateDNSLog, attemptedTargets, runNames_map, ih, List.map_map, Function.comp]

/-- C1 — Provisioning validates the check interval: negative intervals and
positive intervals below one second fail; intervals of at least one second
are stored as given; a zero (unset) interval is replaced by the default of
30 minutes and provisioning succeeds. -/
theorem provision_interval_validation (ci : Int) :
    (ci < 0 → (provisionInterval ci).isOk = false)
    ∧ (0 < ci → ci < nsPerSecond → (provisionInterval ci).isOk = false)
    ∧ (nsPerSecond ≤ ci → provisionInterval ci = Except.ok ci)
    ∧ (ci = 0 → provisionInterval ci = Except.ok defaultCheckInterval) := by
  simp only [provisionInterval, nsPerSecond, defaultCheckInterval]
  refine ⟨?_, ?_, ?_, ?_⟩
  · intro h
    rw [if_neg (show ¬ ci = 0 by omega), if_pos (show ci < 1000000000 by omega)]
    rfl
  · intro h0 h1
    rw [if_neg (show ¬ ci = 0 by omega), if_pos (show ci < 1000000000 by omega)]
    rfl
  · intro h
    rw [if_neg (show ¬ ci = 0 by omega), if_neg (show ¬ ci < 1000000000 by omega)]
  · intro h
    rw [if_pos h, if_neg (show ¬ (30 * 60 * 1000000000 : Int) < 1000000000 by omega)]

/-- Witness for C1: provisioning fails at -5 and at half a second, stores
2 seconds unchanged, and maps the unset interval to the default. -/
theorem provision_interval_validation_witness :
    (provisionInterval (-5)).isOk = false
    ∧ (provisionInterval 500000000).isOk = false
    ∧ provisionInterval 2000000000 = Except.ok 2000000000
    ∧ provisionInterval 0 = Except.ok defaultCheckInterval :=
  ⟨(provision_interval_validation (-5)).1 (by decide),
   (provision_interval_validation 500000000).2.1 (by decide) (by decide),
   (provision_interval_validation 2000000000).2.2.1 (by decide),
   (provision_interval_validation 0).2.2.2 rfl⟩

/-- Counterexample to C1 as stated: a check interval of 0 does NOT make
provisioning fail — it succeeds and stores the 30-minute default. -/
theorem provision_zero_succeeds :
    provisionInterval 0 = Except.ok defaultCheckInterval
    ∧ (provisionInterval 0).isOk = true := ⟨rfl, rfl⟩

/-- C3 — One reconciliation pass logs exactly one outcome per target in
resolver order, and each outcome is the executor's verdict on that target
alone, so a failure on one target neither aborts the pass nor affects the
others; in particular with three targets and an executor failing on the
second, the pass reports success, failure, success. -/
theorem updateDNS_pass_isolation :
    (∀ (exec : String → String → Except String Unit) (m : DomainMap),
      updateDNSLog exec (allDomains m) =
        (attemptedTargets m).map (fun t => (t.1, t.2, (exec t.1 t.2).isOk)))
    ∧ updateDNSLog
        (fun _ n => if n = "b" then (Except.error "boom" : Except String Unit) else Except.ok ())
        (allDomains [("z", ["a", "b", "c"])]) =
        [("z", "a", true), ("z", "b", false), ("z", "c", true)] :=
  ⟨fun exec m => updateDNSLog_map exec m, by decide⟩

/-- C5 — The administrative command built for `(zone, name)` is exactly
the CNAME command whose alias target is the zone apex, and it can only be
read as such: any alias target it renders as is the zone itself. -/
theorem cname_command_targets_apex (zone name aliasTarget : String) :
    cmdFor zone name = renderCNAMECmd zone name zone
    ∧ (cmdFor zone name = renderCNAMECmd zone name aliasTarget → aliasTarget = zone) := by
  refine ⟨rfl, ?_⟩
  intro h
  simp only [cmdFor, renderCNAMECmd] at h
  exact (strAppend_cancel_left _ _ _ h).symm

/-- Witness for C5 at `zone = "example.com"`, `name = "api"`. -/
theorem cname_command_targets_apex_witness : ("example.com" : String) = "example.com" :=
  (cname_command_targets_apex "example.com" "api" "example.com").2 rfl

/-- C10 — In `parseApp`, an argument to `auto_cname` is consumed (the
cursor moves past it) but never stored, leaving `AutoCNAMEZone` empty;
only when `auto_cname` has no argument is `AutoCNAMEZone` assigned, and
it is then the directive token `"auto_cname"` itself. -/
theorem auto_cname_arg_never_stored (zone : String) :
    ((autoCNAMECase ⟨["auto_cname", zone], 0⟩ initialAppZone).2.AutoCNAMEZone = ""
      ∧ (autoCNAMECase ⟨["auto_cname", zone], 0⟩ initialAppZone).1.pos = 1)
    ∧ (autoCNAMECase ⟨["auto_cname"], 0⟩ initialAppZone).2.AutoCNAMEZone = "auto_cname" :=
  ⟨⟨rfl, rfl⟩, rfl⟩

/-- C4 — When dial, session and command dispatch all succeed, the update
succeeds exactly when the combined output does not contain the substring
`"Error"`; any dial, session or command-dispatch failure makes the update
return an error. -/
theorem update_outcome_classification (env : RemoteEnv) (zone domain : String) :
    (env.dialErr = none → env.sessionErr = none →
      (env.run (fullCmdFor zone domain)).2 = none →
      ((updateCNAME env zone domain).isOk = true ↔
        goContains (env.run (fullCmdFor zone domain)).1 "Error" = false))
    ∧ ((env.dialErr ≠ none ∨ env.sessionErr ≠ none ∨
          (env.run (fullCmdFor zone domain)).2 ≠ none) →
        (updateCNAME env zone domain).isOk = false) := by
  constructor
  · intro hd hs hr
    rw [updateCNAME, hd, hs]
    simp only []
    rw [hr]
    by_cases hc : goContains (env.run (fullCmdFor zone domain)).1 "Error" = true
    · rw [if_pos hc]
      simp [Except.isOk, Except.toBool, hc]
    · rw [if_neg hc]
      simp [Except.isOk, Except.toBool]
      exact Bool.eq_false_iff.mpr hc
  · intro h
    rw [updateCNAME]
    rcases hd : env.dialErr with _ | e
    · rcases hs : env.sessionErr with _ | e
      · rcases hr : (env.run (fullCmdFor zone domain)).2 with _ | e
        · rcases h with h | h | h
          · exact absurd hd h
          · exact absurd hs h
          · exact absurd hr h
        · simp only []
          rw [hr]
          rfl
      · rfl
    · rfl

/-- Witness for C4: with a clean transport and output `"ok"` the update
succeeds; with a failing dial it returns an error. -/
theorem update_outcome_classification_witness :
    (updateCNAME ⟨none, none, fun _ => ("ok", none)⟩ "z" "n").isOk = true
    ∧ (updateCNAME ⟨some "refused", none, fun _ => ("", none)⟩ "z" "n").isOk = false :=
  ⟨(update_outcome_classification ⟨none, none, fun _ => ("ok", none)⟩ "z" "n").1
      rfl rfl rfl |>.mpr (by decide),
   (update_outcome_classification ⟨some "refused", none, fun _ => ("", none)⟩ "z" "n").2
      (Or.inl (by decide))⟩

/-- C6 — On a snapshot with one route holding a decoded `"reverse_proxy"`
handler and a host matcher listing `"api.example.com"`, discovery with
zone `"example.com"` adds name `"api"` under `"example.com"`; a route
whose only handler decodes to any other discriminator kind contributes no
domains. -/
theorem auto_discovery_reverse_proxy_only :
    addReverseProxyCNAMEs "example.com" snapApi [] = ([("example.com", ["api"])], none)
    ∧ ∀ (k : Option String) (msets : List (List Matcher)) (zone : String) (m : DomainMap),
        k ≠ some "reverse_proxy" →
        addReverseProxyCNAMEs zone ⟨[⟨[⟨[RawHandler.decoded k], msets⟩]⟩]⟩ m = (m, none) := by
  constructor
  · decide
  · intro k msets zone m hk
    simp [addReverseProxyCNAMEs, serversLoop, processRoutes, processHandlers, hk]

/-- Witness for C6: a `"static_response"` handler contributes nothing. -/
theorem auto_discovery_reverse_proxy_only_witness :
    addReverseProxyCNAMEs "example.com"
      ⟨[⟨[⟨[RawHandler.decoded (some "static_response")],
            [[Matcher.host ["api.example.com"]]]⟩]⟩]⟩ [] = ([], none) :=
  auto_discovery_reverse_proxy_only.2 (some "static_response")
    [[Matcher.host ["api.example.com"]]] "example.com" [] (by decide)

theorem appendAll_append (m : DomainMap) (z : String) (a b : List String) :
    DM.appendAll m z (a ++ b) = DM.appendAll (DM.appendAll m z a) z b := by
  simp [DM.appendAll, List.foldl_append]

theorem addHostList_eq (zone : String) (hosts : List String) (m : DomainMap) :
    addHostList zone hosts m =
      DM.appendAll m zone (hosts.map (fun h => goTrimSuffix h ("." ++ zone))) := by
  rw [addHostList, DM.appendAll, List.foldl_map]

theorem addMatcher_eq (zone : String) (mt : Matcher) (m : DomainMap) :
    addMatcher zone mt m =
      DM.appendAll m zone ((matcherHosts mt).map (fun h => goTrimSuffix h ("." ++ zone))) := by
  cases mt with
  | host hs => exact addHostList_eq zone hs m
  | other => rfl

theorem addMatcherSet_eq (zone : String) (ms : List Matcher) :
    ∀ m : DomainMap,
      addMatcherSet zone ms m =
        DM.appendAll m zone ((msetHosts ms).map (fun h => goTrimSuffix h ("." ++ zone))) := by
  induction ms with
  | nil => intro m; rfl
  | cons mt rest ih =>
    intro m
    have h1 : addMatcherSet zone (mt :: rest) m = addMatcherSet zone rest (addMatcher zone mt m) := rfl
    rw [h1, ih, addMatcher_eq, ← appendAll_append, ← List.map_append]
    rfl

theorem addMatcherHosts_eq (zone : String) (msets : List (List Matcher)) :
    ∀ m : DomainMap,
      addMatcherHosts zone msets m =
        DM.appendAll m zone ((msetsHosts msets).map (fun h => goTrimSuffix h ("." ++ zone))) := by
  induction msets with
  | nil => intro m; rfl
  | cons ms rest ih =>
    intro m
    have h1 : addMatcherHosts zone (ms :: rest) m = addMatcherHosts zone rest (addMatcherSet zone ms m) := rfl
    rw [h1, ih, addMatcherSet_eq, ← appendAll_append, ← List.map_append]
    rfl

theorem processHandlers_clean (zone : String) (msets : List (List Matcher)) :
    ∀ (hs : List RawHandler) (m : DomainMap), handlersClean hs = true →
      processHandlers zone msets hs m =
        (DM.appendAll m zone
          ((handlersHosts msets hs).map (fun h => goTrimSuffix h ("." ++ zone))), none) := by
  intro hs
  induction hs with
  | nil => intro m _; rfl
  | cons h rest ih =>
    cases h with
    | malformed => intro m hc; exact absurd hc (by simp [handlersClean])
    | decoded k =>
      intro m hc
      have h1 : processHandlers zone msets (RawHandler.decoded k :: rest) m =
          processHandlers zone msets rest
            (if k = some "reverse_proxy" then addMatcherHosts zone msets m else m) := rfl
      rw [h1, ih _ (by simpa [handlersClean] using hc)]
      by_cases hk : k = some "reverse_proxy"
      · rw [if_pos hk, addMatcherHosts_eq, ← appendAll_append, ← List.map_append]
        simp [handlersHosts, hk]
      · rw [if_neg hk]
        simp [handlersHosts, hk]

theorem processRoutes_clean (zone : String) :
    ∀ (rs : List Route) (m : DomainMap), routesClean rs = true →
      processRoutes zone rs m =
        (DM.appendAll m zone
          ((routesHosts rs).map (fun h => goTrimSuffix h ("." ++ zone))), none) := by
  intro rs
  induction rs with
  | nil => intro m _; rfl
  | cons r rest ih =>
    intro m hc
    rw [routesClean, Bool.and_eq_true] at hc
    have h1 : processRoutes zone (r :: rest) m =
        (match processHandlers zone r.matcherSets r.handlersRaw m with
          | (m', none) => processRoutes zone rest m'
          | (m', some e) => (m', some e)) := rfl
    rw [h1, processHandlers_clean zone r.matcherSets r.handlersRaw m hc.1]
    dsimp only
    rw [ih _ hc.2, ← appendAll_append, ← List.map_append]
    rfl

theorem serversLoop_clean (zone : String) :
    ∀ (ss : List Server) (m : DomainMap), serversClean ss = true →
      serversLoop zone ss m =
        (DM.appendAll m zone
          ((serversHosts ss).map (fun h => goTrimSuffix h ("." ++ zone))), none) := by
  intro ss
  induction ss with
  | nil => intro m _; rfl
  | cons s rest ih =>
    intro m hc
    rw [serversClean, Bool.and_eq_true] at hc
    have h1 : serversLoop zone (s :: rest) m =
        (match processRoutes zone s.routes m with
          | (m', none) => serversLoop zone rest m'
          | (m', some e) => (m', some e)) := rfl
    rw [h1, processRoutes_clean zone s.routes m hc.1]
    dsimp only
    rw [ih _ hc.2, ← appendAll_append, ← List.map_append]
    rfl

theorem run_clean (zone : String) (snap : Snapshot) (m : DomainMap)
    (h : snapClean snap = true) :
    addReverseProxyCNAMEs zone snap m =
      (DM.appendAll m zone
        ((matchedHosts snap).map (fun h => goTrimSuffix h ("." ++ zone))), none) :=
  serversLoop_clean zone snap.servers m h

theorem processHandlers_err (zone : String) (msets : List (List Matcher)) :
    ∀ (hs : List RawHandler) (m : DomainMap), handlersClean hs = false →
      (processHandlers zone msets hs m).2 = some "failed to unmarshal handler" := by
  intro hs
  induction hs with
  | nil => intro m hc; exact absurd hc (by simp [handlersClean])
  | cons h rest ih =>
    cases h with
    | malformed => intro m _; rfl
    | decoded k =>
      intro m hc
      exact ih _ (by simpa [handlersClean] using hc)

theorem processRoutes_err (zone : String) :
    ∀ (rs : List Route) (m : DomainMap), routesClean rs = false →
      (processRoutes zone rs m).2 = some "failed to unmarshal handler" := by
  intro rs
  induction rs with
  | nil => intro m hc; exact absurd hc (by simp [routesClean])
  | cons r rest ih =>
    intro m hc
    have h1 : processRoutes zone (r :: rest) m =
        (match processHandlers zone r.matcherSets r.handlersRaw m with
          | (m', none) => processRoutes zone rest m'
          | (m', some e) => (m', some e)) := rfl
    by_cases hh : handlersClean r.handlersRaw = true
    · have hr : routesClean rest = false := by
        simpa [routesClean, hh] using hc
      rw [h1, processHandlers_clean zone r.matcherSets r.handlersRaw m hh]
      exact ih _ hr
    · have hp := processHandlers_err zone r.matcherSets r.handlersRaw m
        (Bool.eq_false_iff.mpr hh)
      rw [h1]
      rcases hpe : processHandlers zone r.matcherSets r.handlersRaw m with ⟨m', e⟩
      rw [hpe] at hp
      cases e with
      | none => exact absurd hp (by simp)
      | some e' => simpa using hp

theorem serversLoop_err (zone : String) :
    ∀ (ss : List Server) (m : DomainMap), serversClean ss = false →
      (serversLoop zone ss m).2 = some "failed to unmarshal handler" := by
  intro ss
  induction ss with
  | nil => intro m hc; exact absurd hc (by simp [serversClean])
  | cons s rest ih =>
    intro m hc
    have h1 : serversLoop zone (s :: rest) m =
        (match processRoutes zone s.routes m with
          | (m', none) => serversLoop zone rest m'
          | (m', some e) => (m', some e)) := rfl
    by_cases hh : routesClean s.routes = true
    · have hr : serversClean rest = false := by
        simpa [serversClean, hh] using hc
      rw [h1, processRoutes_clean zone s.routes m hh]
      exact ih _ hr
    · have hp := processRoutes_err zone s.routes m (Bool.eq_false_iff.mpr hh)
      rw [h1]
      rcases hpe : processRoutes zone s.routes m with ⟨m', e⟩
      rw [hpe] at hp
      cases e with
      | none => exact absurd hp (by simp)
      | some e' => simpa using hp

theorem lookup_addName_self (m : DomainMap) (z n : String) :
    DM.lookup (DM.addName m z n) z = DM.lookup m z ++ [n] := by
  induction m with
  | nil => simp [DM.addName, DM.lookup]
  | cons p rest ih =>
    obtain ⟨z0, ns⟩ := p
    by_cases hz : z0 = z
    · simp [DM.addName, DM.lookup, hz]
    · simp [DM.addName, DM.lookup, hz, ih]

theorem lookup_appendAll_self (ns : List String) :
    ∀ (m : DomainMap) (z : String),
      DM.lookup (DM.appendAll m z ns) z = DM.lookup m z ++ ns := by
  induction ns with
  | nil => intro m z; simp [DM.appendAll]
  | cons n rest ih =>
    intro m z
    have h1 : DM.appendAll m z (n :: rest) = DM.appendAll (DM.addName m z n) z rest := rfl
    rw [h1, ih, lookup_addName_self]
    simp

theorem trim_dot_self (zone : String) : goTrimSuffix zone ("." ++ zone) = zone := by
  have hlen : ("." ++ zone).data.length = zone.data.length + 1 := by
    rw [String.data_append]
    have hd : (".").data = ['.'] := rfl
    rw [hd]
    simp
  have hns : ¬ (("." ++ zone).data.length ≤ zone.data.length) := by omega
  simp [goTrimSuffix, goHasSuffix, hns]

/-- Counterexample to C7 as stated: on a route whose reverse-proxy handler
precedes a malformed handler, discovery does return an error, but the
DomainMap is NOT left unchanged — the addition made before the malformed
handler persists. -/
theorem discovery_partial_mutation_cex :
    (addReverseProxyCNAMEs "example.com" snapPartial []).2 = some "failed to unmarshal handler"
    ∧ (addReverseProxyCNAMEs "example.com" snapPartial []).1 ≠ ([] : DomainMap) := by
  decide

/-- C7 (amended) — Every snapshot containing a malformed handler encoding
makes the discovery step return an error for the whole step. -/
theorem discovery_malformed_fails (zone : String) (snap : Snapshot) (m : DomainMap)
    (h : snapClean snap = false) :
    (addReverseProxyCNAMEs zone snap m).2 = some "failed to unmarshal handler" :=
  serversLoop_err zone snap.servers m h

/-- Witness for C7 at the concrete snapshot `snapPartial`. -/
theorem discovery_malformed_fails_witness :
    (addReverseProxyCNAMEs "example.com" snapPartial []).2 =
      some "failed to unmarshal handler" :=
  discovery_malformed_fails "example.com" snapPartial [] rfl

/-- Counterexample to C8 as stated: running discovery twice on the C6
snapshot appends `"api"` a second time, so the result differs from a
single run. -/
theorem discovery_twice_differs_cex :
    addReverseProxyCNAMEs "example.com" snapApi
        (addReverseProxyCNAMEs "example.com" snapApi []).1
      ≠ addReverseProxyCNAMEs "example.com" snapApi [] := by
  decide

/-- C8 (amended) — On a snapshot whose handlers all decode, running the
discovery step twice yields the same DomainMap as running it once exactly
when the snapshot discovers no hosts; otherwise the second run appends the
discovered labels again. -/
theorem discovery_idempotent_iff_no_hosts (zone : String) (snap : Snapshot)
    (m : DomainMap) (h : snapClean snap = true) :
    (addReverseProxyCNAMEs zone snap (addReverseProxyCNAMEs zone snap m).1
      = addReverseProxyCNAMEs zone snap m) ↔ matchedHosts snap = [] := by
  constructor
  · intro he
    set d := (matchedHosts snap).map (fun host => goTrimSuffix host ("." ++ zone)) with hd
    have key : ∀ x : DomainMap,
        DM.lookup (addReverseProxyCNAMEs zone snap x).1 zone = DM.lookup x zone ++ d := by
      intro x
      rw [run_clean zone snap x h]
      exact lookup_appendAll_self _ _ _
    have e1 := key (addReverseProxyCNAMEs zone snap m).1
    rw [key m] at e1
    rw [he, key m] at e1
    have hl2 : DM.lookup m zone ++ (d ++ d) = DM.lookup m zone ++ d := by
      rw [← List.append_assoc, ← e1]
    have hdd : d ++ d = d := List.append_cancel_left hl2
    have hlen := congrArg List.length hdd
    rw [List.length_append] at hlen
    have hz : d.length = 0 := by omega
    have hdnil : d = [] := List.eq_nil_of_length_eq_zero hz
    rw [hd] at hdnil
    exact List.map_eq_nil_iff.mp hdnil
  · intro he
    have h1 : addReverseProxyCNAMEs zone snap m = (m, none) := by
      rw [run_clean zone snap m h, he]
      rfl
    rw [h1]
    exact h1

/-- Witness for C8 at the empty snapshot, which discovers nothing. -/
theorem discovery_idempotent_iff_no_hosts_witness :
    (addReverseProxyCNAMEs "z" ⟨[]⟩ (addReverseProxyCNAMEs "z" ⟨[]⟩ []).1
      = addReverseProxyCNAMEs "z" ⟨[]⟩ []) ↔ matchedHosts ⟨[]⟩ = [] :=
  discovery_idempotent_iff_no_hosts "z" ⟨[]⟩ [] rfl

/-- C9 — On a snapshot whose handlers all decode, the names discovery adds
under the zone are exactly the matched hosts with a trailing `".<zone>"`
suffix trimmed, in scan order; and trimming is a no-op when the host
equals the zone itself (and whenever the host does not end in `".<zone>"`),
so such hosts are stored verbatim. -/
theorem discovery_names_are_trimmed_hosts (zone : String) (snap : Snapshot)
    (m : DomainMap) (h : snapClean snap = true) :
    DM.lookup (addReverseProxyCNAMEs zone snap m).1 zone
      = DM.lookup m zone
        ++ (matchedHosts snap).map (fun host => goTrimSuffix host ("." ++ zone))
    ∧ goTrimSuffix zone ("." ++ zone) = zone
    ∧ ∀ host : String, goHasSuffix host ("." ++ zone) = false →
        goTrimSuffix host ("." ++ zone) = host := by
  refine ⟨?_, trim_dot_self zone, ?_⟩
  · rw [run_clean zone snap m h]
    exact lookup_appendAll_self _ _ _
  · intro host hns
    simp [goTrimSuffix, hns]

/-- Witness for C9 at the C6 snapshot, with `"other.net"` as a host that
does not lie under the zone. -/
theorem discovery_names_are_trimmed_hosts_witness :
    DM.lookup (addReverseProxyCNAMEs "example.com" snapApi []).1 "example.com"
      = DM.lookup ([] : DomainMap) "example.com"
        ++ (matchedHosts snapApi).map (fun host => goTrimSuffix host ("." ++ "example.com"))
    ∧ goTrimSuffix "example.com" ("." ++ "example.com") = "example.com"
    ∧ goTrimSuffix "other.net" ("." ++ "example.com") = "other.net" :=
  ⟨(discovery_names_are_trimmed_hosts "example.com" snapApi [] rfl).1,
   (discovery_names_are_trimmed_hosts "example.com" snapApi [] rfl).2.1,
   (discovery_names_are_trimmed_hosts "example.com" snapApi [] rfl).2.2 "other.net" (by decide)⟩

theorem countP_name_nodup (ns : List String) (n : String) (h : ns.Nodup) :
    (ns.countP fun x => decide (x = n)) = if n ∈ ns then 1 else 0 := by
  induction ns with
  | nil => simp
  | cons a rest ih =>
    rw [List.nodup_cons] at h
    by_cases ha : a = n
    · subst ha
      simp [List.countP_cons, ih h.2, h.1]
    · have hna : ¬ n = a := fun hh => ha hh.symm
      simp [List.countP_cons, ih h.2, ha, hna, List.mem_cons]

theorem mem_attemptedTargets_fst :
    ∀ (m : DomainMap) (t : String × String), t ∈ attemptedTargets m → t.1 ∈ m.map Prod.fst := by
  intro m
  induction m with
  | nil => intro t ht; simp [attemptedTargets] at ht
  | cons p rest ih =>
    obtain ⟨z0, ns⟩ := p
    intro t ht
    rw [attemptedTargets, List.mem_append] at ht
    rcases ht with ht | ht
    · rcases List.mem_map.mp ht with ⟨n, _, rfl⟩
      simp
    · simp [ih t ht]

theorem attempts_countP_zero (m : DomainMap) (z n : String) (hz : z ∉ m.map Prod.fst) :
    ((attemptedTargets m).countP fun t => decide (t.1 = z ∧ t.2 = n)) = 0 := by
  rw [List.countP_eq_zero]
  intro t ht hc
  have hp := of_decide_eq_true hc
  exact hz (hp.1 ▸ mem_attemptedTargets_fst m t ht)

theorem attempts_countP_char (z n : String) :
    ∀ (m : DomainMap), (m.map Prod.fst).Nodup → (∀ p ∈ m, (Prod.snd p).Nodup) →
      ((attemptedTargets m).countP fun t => decide (t.1 = z ∧ t.2 = n)) =
        if n ∈ DM.lookup m z then 1 else 0 := by
  intro m
  induction m with
  | nil => intro _ _; simp [attemptedTargets, DM.lookup]
  | cons p rest ih =>
    obtain ⟨z0, ns⟩ := p
    intro hk hn
    rw [List.map_cons, List.nodup_cons] at hk
    rw [attemptedTargets, List.countP_append]
    have hcm : ((ns.map fun n0 => (z0, n0)).countP fun t => decide (t.1 = z ∧ t.2 = n))
        = ns.countP fun x => decide (z0 = z ∧ x = n) := by
      rw [List.countP_map]
      rfl
    by_cases hz : z0 = z
    · subst hz
      have he : (fun x => decide (z0 = z0 ∧ x = n)) = fun x : String => decide (x = n) := by
        funext x
        simp
      have hns : ns.Nodup := by
        have := hn (z0, ns) (by simp)
        simpa using this
      rw [hcm, he, countP_name_nodup ns n hns, attempts_countP_zero rest z0 n hk.1]
      rw [DM.lookup, if_pos rfl]
      simp
    · have hz2 : ((ns.countP fun x => decide (z0 = z ∧ x = n))) = 0 := by
        rw [List.countP_eq_zero]
        intro a _ hc
        exact hz (of_decide_eq_true hc).1
      have hn2 : ∀ p ∈ rest, (Prod.snd p).Nodup := fun p hp => hn p (by simp [hp])
      rw [hcm, hz2, ih hk.2 hn2]
      rw [DM.lookup, if_neg hz]
      simp

theorem passAttempts_eq (exec : String → String → Except String Unit)
    (m : DomainMap) (z n : String) :
    passAttempts exec m z n =
      ((attemptedTargets m).countP fun t => decide (t.1 = z ∧ t.2 = n)) := by
  rw [passAttempts, allDomains, updateDNSLog_map, List.countP_map]
  rfl

/-- C2 (amended) — For a DomainMap whose zone keys are distinct and whose
name lists are duplicate-free, one reconciliation pass attempts exactly one
remote update per (zone, name) pair present in the map and none for any
absent pair; in general each occurrence of a name in a zone's list is
attempted once, so duplicated entries are attempted once per occurrence. -/
theorem pass_one_attempt_per_pair (exec : String → String → Except String Unit)
    (m : DomainMap) (z n : String)
    (hk : (m.map Prod.fst).Nodup) (hn : ∀ p ∈ m, (Prod.snd p).Nodup) :
    passAttempts exec m z n = if n ∈ DM.lookup m z then 1 else 0 := by
  rw [passAttempts_eq]
  exact attempts_countP_char z n m hk hn

/-- Witness for C2 on a one-zone, one-name map. -/
theorem pass_one_attempt_per_pair_witness :
    passAttempts (fun _ _ => Except.ok ()) [("example.com", ["api"])] "example.com" "api"
      = if "api" ∈ DM.lookup [("example.com", ["api"])] "example.com" then 1 else 0 :=
  pass_one_attempt_per_pair (fun _ _ => Except.ok ()) [("example.com", ["api"])]
    "example.com" "api" (by decide) (by decide)

/-- Counterexample to C2 as stated: when a zone's list holds the same name
twice, the pair is present in the map but is attempted twice, not once. -/
theorem pass_duplicate_attempted_twice_cex :
    passAttempts (fun _ _ => Except.ok ()) [("z", ["n", "n"])] "z" "n" = 2
    ∧ "n" ∈ DM.lookup [("z", ["n", "n"])] "z" :=
  ⟨rfl, by decide⟩

end WinDNS
